import Mathlib

/-!
Verification of the transformer inference utilities of this repository
(`src/utils/transformer_utils.py`): mask construction, the greedy
autoregressive decode loop `evaluate`, the `translate` wrapper and the
custom learning-rate schedule.

The embedding is a direct shallow translation of the Python source:
tensors become (nested) lists, float32 logits become rationals `ℚ`
(only order comparisons matter to the control flow), the learning-rate
schedule is modelled over the reals, and the `for i in range(...)` loop
becomes structural recursion on the remaining iteration count.
`tf.argmax` returns the smallest index attaining the maximum, which the
`argmax` function below reproduces.

The Python local variable `attention_weights` is only bound inside the
loop body; if the loop body never runs (non-positive `max_length_pred`)
the final `return` raises an unbound-local error.  The embedding makes
this explicit by threading the attention value as an `Option`: `none`
corresponds exactly to the unbound state.
-/

namespace TransformerUtils

/-- Tokenizer capability used by `evaluate`/`translate`
(`tfds.features.text.SubwordTextEncoder` in the source): a vocabulary
size, text-to-ids encoding and ids-to-text decoding. -/
structure SubwordTextEncoder where
  vocab_size : Nat
  encode : String → List Nat
  decode : List Nat → String

/-- The trained model capability (class `Transformer` in the source):
called with encoder input ids, decoder input ids, a training flag and
the three masks, it returns logits of shape (batch, seq_len, vocab)
together with attention weights of some abstract type `α`. -/
structure Transformer (α : Type) where
  run : List (List Nat) → List (List Nat) → Bool →
        List (List (List (List ℚ))) → List (List (List (List ℚ))) →
        List (List (List (List ℚ))) → List (List (List ℚ)) × α

/-- Per-sequence values of `tf.cast(tf.math.equal(seq, 0), tf.float32)`:
1.0 where the entry equals the pad id 0, else 0.0. -/
def padVals (seq : List Nat) : List ℚ :=
  seq.map (fun x => if x = 0 then 1 else 0)

/-- `create_padding_mask(seq)` from the source: mark pad positions and
reshape to (batch_size, 1, 1, seq_len) via `seq[:, newaxis, newaxis, :]`. -/
def create_padding_mask (seq : List (List Nat)) : List (List (List (List ℚ))) :=
  seq.map (fun row => [[padVals row]])

/-- `tf.linalg.band_part(tf.ones((size, size)), numLower, numUpper)`:
entry (i, j) is kept (value 1) iff
`(numLower < 0 ∨ i - j ≤ numLower) ∧ (numUpper < 0 ∨ j - i ≤ numUpper)`. -/
def bandPartOnes (size : Nat) (numLower numUpper : Int) : List (List ℚ) :=
  (List.range size).map (fun i : Nat =>
    (List.range size).map (fun j : Nat =>
      if (numLower < 0 ∨ (i : Int) - (j : Int) ≤ numLower) ∧
         (numUpper < 0 ∨ (j : Int) - (i : Int) ≤ numUpper) then 1 else 0))

/-- `create_look_ahead_mask(size)` from the source:
`1 - tf.linalg.band_part(tf.ones((size, size)), -1, 0)`. -/
def create_look_ahead_mask (size : Nat) : List (List ℚ) :=
  (bandPartOnes size (-1) 0).map (fun row => row.map (fun v => 1 - v))

/-- Second tensor dimension `tf.shape(t)[1]` of a rectangular batch. -/
def dim1 (t : List (List Nat)) : Nat := (t.headD []).length

/-- Broadcasting `tf.maximum` of a (batch, 1, 1, seq) padding mask with a
(seq, seq) look-ahead mask, giving a (batch, 1, seq, seq) tensor whose
entry (b, 0, i, j) is `max (pad b 0 0 j) (look i j)`. -/
def broadcastMax4 (pad : List (List (List (List ℚ)))) (look : List (List ℚ)) :
    List (List (List (List ℚ))) :=
  pad.map (fun pb =>
    [look.map (fun row => List.zipWith max ((pb.headD []).headD []) row)])

/-- `create_masks(inp, tar)` from the source: encoder padding mask and
decoder (cross-attention) padding mask both from `inp`, and the combined
decoder mask `tf.maximum(create_padding_mask(tar), look_ahead_mask)`. -/
def create_masks (inp tar : List (List Nat)) :
    List (List (List (List ℚ))) × List (List (List (List ℚ))) ×
      List (List (List (List ℚ))) :=
  let enc_padding_mask := create_padding_mask inp
  let dec_padding_mask := create_padding_mask inp
  let look_ahead_mask := create_look_ahead_mask (dim1 tar)
  let dec_target_padding_mask := create_padding_mask tar
  let combined_mask := broadcastMax4 dec_target_padding_mask look_ahead_mask
  (enc_padding_mask, combined_mask, dec_padding_mask)

/-- First index of the maximal element (`tf.argmax` semantics: ties are
resolved towards the smaller index). -/
def argmaxAux : List ℚ → Nat → Nat → ℚ → Nat
  | [], _, best, _ => best
  | x :: xs, i, best, bv =>
      if bv < x then argmaxAux xs (i + 1) i x else argmaxAux xs (i + 1) best bv

/-- `tf.argmax` over a single logit vector. -/
def argmax : List ℚ → Nat
  | [] => 0
  | x :: xs => argmaxAux xs 1 0 x

/-- One loop iteration's model call: build the three masks from the fixed
encoder input and the current decoder output, then invoke the model in
inference mode (training flag false). -/
def stepOutputs {α : Type} (model : Transformer α) (encInp output : List Nat) :
    List (List (List ℚ)) × α :=
  let masks := create_masks [encInp] [output]
  model.run [encInp] [output] false masks.1 masks.2.1 masks.2.2

/-- The greedy choice of one iteration: argmax over the logits at the last
sequence position (`predictions[:, -1:, :]` followed by `tf.argmax`). -/
def stepPredictedId {α : Type} (model : Transformer α) (encInp output : List Nat) : Nat :=
  argmax (((stepOutputs model encInp output).1.headD []).getLastD [])

/-- The attention weights produced by one iteration's model call. -/
def stepAttention {α : Type} (model : Transformer α) (encInp output : List Nat) : α :=
  (stepOutputs model encInp output).2

/-- The `for i in range(max_length_pred)` loop of `evaluate`, as structural
recursion on the remaining iteration count.  `output` is the single row of
the decoder tensor, `att` the current binding of the Python local
`attention_weights` (`none` = not yet bound). -/
def evalLoop {α : Type} (vt : Nat) (model : Transformer α) (encInp : List Nat) :
    Nat → List Nat → Option α → List Nat × Option α
  | 0, output, att => (output, att)
  | n + 1, output, _att =>
      let po := stepOutputs model encInp output
      let predicted_id := argmax ((po.1.headD []).getLastD [])
      if predicted_id = vt + 1 then
        (output, some po.2)
      else
        evalLoop vt model encInp n (output ++ [predicted_id]) (some po.2)

/-- The fixed encoder input built by `evaluate`: start sentinel
(source vocab size), encoded sentence, end sentinel (source vocab size + 1). -/
def encoderInputOf (tokenizer_source : SubwordTextEncoder) (inp_sentence : String) :
    List Nat :=
  [tokenizer_source.vocab_size] ++ tokenizer_source.encode inp_sentence ++
    [tokenizer_source.vocab_size + 1]

/-- `evaluate` from the source: greedy autoregressive decoding.  The result
is the squeezed output row together with the final `attention_weights`
binding (`none` models the unbound-local error when the loop never ran). -/
def evaluate {α : Type} (inp_sentence : String)
    (tokenizer_source tokenizer_target : SubwordTextEncoder)
    (max_length_pred : Int) (transformer : Transformer α) : List Nat × Option α :=
  let encoder_input := encoderInputOf tokenizer_source inp_sentence
  let decoder_input := [tokenizer_target.vocab_size]
  evalLoop tokenizer_target.vocab_size transformer encoder_input
    max_length_pred.toNat decoder_input none

/-- Number of model invocations the loop performs, mirroring `evalLoop`
iteration by iteration. -/
def evalLoopCount {α : Type} (vt : Nat) (model : Transformer α) (encInp : List Nat) :
    Nat → List Nat → Nat
  | 0, _ => 0
  | n + 1, output =>
      if stepPredictedId model encInp output = vt + 1 then 1
      else evalLoopCount vt model encInp n
        (output ++ [stepPredictedId model encInp output]) + 1

/-- Number of model invocations performed by a call to `evaluate`. -/
def evaluateModelCalls {α : Type} (inp_sentence : String)
    (tokenizer_source tokenizer_target : SubwordTextEncoder)
    (max_length_pred : Int) (transformer : Transformer α) : Nat :=
  evalLoopCount tokenizer_target.vocab_size transformer
    (encoderInputOf tokenizer_source inp_sentence)
    max_length_pred.toNat [tokenizer_target.vocab_size]

/-- `translate` from the source: run `evaluate`, keep only ids strictly
below the target vocabulary size (`[i for i in result if i < vocab_size]`)
and decode them to text.  The optional attention plot is a pure side
effect in the source and does not influence the returned string. -/
def translate {α : Type} (inp_sentence : String)
    (tokenizer_source tokenizer_target : SubwordTextEncoder)
    (max_length_pred : Int) (transformer : Transformer α) : String :=
  let result := (evaluate inp_sentence tokenizer_source tokenizer_target
    max_length_pred transformer).1
  tokenizer_target.decode
    (result.filter (fun i => decide (i < tokenizer_target.vocab_size)))

/-- Entry (b, h, i, j) of a rank-4 tensor, with default 0. -/
def get4 (m : List (List (List (List ℚ)))) (b h i j : Nat) : ℚ :=
  (((m.getD b []).getD h []).getD i []).getD j 0

/-- Entry (i, j) of a rank-2 tensor, with default 0. -/
def get2 (m : List (List ℚ)) (i j : Nat) : ℚ :=
  (m.getD i []).getD j 0

/-- Immutable state of the learning-rate schedule (class `CustomSchedule`
in the source): the model dimension and the warmup step count, both fixed
at construction. -/
structure CustomSchedule where
  d_model : Nat
  warmup_steps : Nat

/-- Reciprocal square root `tf.math.rsqrt`. -/
noncomputable def rsqrt (x : ℝ) : ℝ := (Real.sqrt x)⁻¹

/-- `CustomSchedule.__call__` from the source:
`rsqrt(d_model) * min(rsqrt(step), step * warmup_steps ** -1.5)`,
modelled over the reals. -/
noncomputable def CustomSchedule.call (sch : CustomSchedule) (step : ℝ) : ℝ :=
  let arg1 := rsqrt step
  let arg2 := step * (sch.warmup_steps : ℝ) ^ (-1.5 : ℝ)
  rsqrt (sch.d_model : ℝ) * min arg1 arg2

/-- Concrete source-side tokenizer used to exercise the theorems on
explicit inputs: vocabulary size 2, every sentence encodes to [1]. -/
def sTokS : SubwordTextEncoder := ⟨2, fun _ => [1], fun _ => ""⟩

/-- Concrete target-side tokenizer with vocabulary size 3, so the target
start sentinel is 3 and the end sentinel is 4. -/
def sTokT : SubwordTextEncoder := ⟨3, fun _ => [1], fun _ => ""⟩

/-- Stub model whose logits always favour id 0, so the end sentinel is
never selected; its attention weights are the constant 7. -/
def zeroModel : Transformer Nat := ⟨fun _ _ _ _ _ _ => ([[[1, 0, 0, 0, 0]]], 7)⟩

/-- Stub model whose logits always favour id 4 (= `sTokT.vocab_size` + 1,
the end sentinel); its attention weights are the constant 9. -/
def endModel : Transformer Nat := ⟨fun _ _ _ _ _ _ => ([[[0, 0, 0, 0, 1]]], 9)⟩

theorem padVals_length (s : List Nat) : (padVals s).length = s.length := by
  simp [padVals]

theorem padVals_getD (s : List Nat) (i : Nat) (hi : i < s.length) :
    (padVals s).getD i 0 = if s.getD i 0 = 0 then 1 else 0 := by
  unfold padVals
  rw [List.getD_eq_getElem _ _ (by simpa using hi), List.getElem_map,
    List.getD_eq_getElem _ _ hi]

theorem padVals_getD_cases (s : List Nat) (i : Nat) :
    (padVals s).getD i 0 = 0 ∨ (padVals s).getD i 0 = 1 := by
  rcases Nat.lt_or_ge i s.length with h | h
  · rw [padVals_getD s i h]
    split <;> simp
  · left
    exact List.getD_eq_default _ _ (by simpa [padVals_length] using h)

theorem create_padding_mask_length (seq : List (List Nat)) :
    (create_padding_mask seq).length = seq.length := by
  simp [create_padding_mask]

theorem create_padding_mask_getD (seq : List (List Nat)) (b : Nat)
    (hb : b < seq.length) :
    (create_padding_mask seq).getD b [] = [[padVals (seq.getD b [])]] := by
  unfold create_padding_mask
  rw [List.getD_eq_getElem _ _ (by simpa using hb), List.getElem_map,
    List.getD_eq_getElem _ _ hb]

theorem lookAhead_length (n : Nat) : (create_look_ahead_mask n).length = n := by
  simp [create_look_ahead_mask, bandPartOnes]

theorem bandPartOnes_getD (n : Nat) (numLower numUpper : Int) (i : Nat)
    (hi : i < n) :
    (bandPartOnes n numLower numUpper).getD i [] =
      (List.range n).map (fun j : Nat =>
        if (numLower < 0 ∨ (i : Int) - (j : Int) ≤ numLower) ∧
           (numUpper < 0 ∨ (j : Int) - (i : Int) ≤ numUpper) then 1 else 0) := by
  unfold bandPartOnes
  rw [List.getD_eq_getElem _ _ (by simpa using hi), List.getElem_map,
    List.getElem_range]

theorem lookAhead_getD_row (n i : Nat) (hi : i < n) :
    (create_look_ahead_mask n).getD i [] =
      (List.range n).map (fun j => if j ≤ i then 0 else 1) := by
  unfold create_look_ahead_mask
  rw [List.getD_eq_getElem _ _ (by simpa [bandPartOnes] using hi),
    List.getElem_map, ← List.getD_eq_getElem _ [] (by simpa [bandPartOnes] using hi),
    bandPartOnes_getD n (-1) 0 i hi, List.map_map]
  refine List.map_congr_left fun j _ => ?_
  by_cases h : j ≤ i
  · have : ((-1 : Int) < 0 ∨ (i : Int) - j ≤ -1) ∧ ((0 : Int) < 0 ∨ (j : Int) - i ≤ 0) := by
      constructor
      · left; norm_num
      · right; omega
    simp [Function.comp, this, h]
  · have : ¬ (((-1 : Int) < 0 ∨ (i : Int) - j ≤ -1) ∧ ((0 : Int) < 0 ∨ (j : Int) - i ≤ 0)) := by
      rintro ⟨-, h2 | h2⟩
      · omega
      · omega
    simp [Function.comp, this, h]

theorem lookAhead_row_length (n i : Nat) (hi : i < n) :
    ((create_look_ahead_mask n).getD i []).length = n := by
  rw [lookAhead_getD_row n i hi]
  simp

theorem lookAhead_get2 (n i j : Nat) (hi : i < n) (hj : j < n) :
    get2 (create_look_ahead_mask n) i j = if i < j then 1 else 0 := by
  unfold get2
  rw [lookAhead_getD_row n i hi,
    List.getD_eq_getElem _ _ (by simpa using hj), List.getElem_map,
    List.getElem_range]
  by_cases h : j ≤ i
  · simp [h, Nat.not_lt.mpr h]
  · simp [h, Nat.lt_of_not_le h]

theorem lookAhead_get2_cases (n i j : Nat) :
    get2 (create_look_ahead_mask n) i j = 0 ∨ get2 (create_look_ahead_mask n) i j = 1 := by
  rcases Nat.lt_or_ge i n with hi | hi
  · rcases Nat.lt_or_ge j n with hj | hj
    · rw [lookAhead_get2 n i j hi hj]
      split <;> simp
    · left
      unfold get2
      exact List.getD_eq_default _ _ (by rw [lookAhead_row_length n i hi]; exact hj)
  · left
    unfold get2
    rw [show (create_look_ahead_mask n).getD i [] = [] from
      List.getD_eq_default _ _ (by rw [lookAhead_length]; exact hi)]
    simp

theorem max_eq_one_iff {a b : ℚ} (ha : a = 0 ∨ a = 1) (hb : b = 0 ∨ b = 1) :
    max a b = 1 ↔ a = 1 ∨ b = 1 := by
  rcases ha with h | h <;> rcases hb with h2 | h2 <;> subst h <;> subst h2 <;>
    norm_num

/-- C5: `create_padding_mask` marks exactly the pad positions.  Entry
(b, 0, 0, i) equals 1 iff the sequence entry is the pad id 0 (and equals 0
otherwise), and the result has the two broadcast singleton dimensions for
heads and query positions.  The embedding is a pure function, matching the
side-effect-free source. -/
theorem create_padding_mask_spec (seq : List (List Nat)) (b i : Nat)
    (hb : b < seq.length) (hi : i < (seq.getD b []).length) :
    (create_padding_mask seq).length = seq.length ∧
    ((create_padding_mask seq).getD b []).length = 1 ∧
    (((create_padding_mask seq).getD b []).getD 0 []).length = 1 ∧
    ((((create_padding_mask seq).getD b []).getD 0 []).getD 0 []).length
      = (seq.getD b []).length ∧
    get4 (create_padding_mask seq) b 0 0 i
      = (if (seq.getD b []).getD i 0 = 0 then 1 else 0) ∧
    (get4 (create_padding_mask seq) b 0 0 i = 1 ↔ (seq.getD b []).getD i 0 = 0) := by
  have hrow := create_padding_mask_getD seq b hb
  have hval : get4 (create_padding_mask seq) b 0 0 i
      = if (seq.getD b []).getD i 0 = 0 then 1 else 0 := by
    unfold get4
    rw [hrow]
    simpa using padVals_getD _ i hi
  refine ⟨create_padding_mask_length seq, by rw [hrow]; rfl, by rw [hrow]; rfl,
    by rw [hrow]; exact padVals_length _, hval, ?_⟩
  rw [hval]
  split <;> simp_all

/-- C6: `create_look_ahead_mask n` is the strictly-upper-triangular n×n
binary matrix: entry (i, j) is 1 iff j > i, and 0 otherwise, so position i
may attend only to positions ≤ i. -/
theorem create_look_ahead_mask_spec (n i j : Nat) (hi : i < n) (hj : j < n) :
    (create_look_ahead_mask n).length = n ∧
    ((create_look_ahead_mask n).getD i []).length = n ∧
    get2 (create_look_ahead_mask n) i j = (if i < j then 1 else 0) ∧
    (get2 (create_look_ahead_mask n) i j = 1 ↔ j > i) := by
  refine ⟨lookAhead_length n, lookAhead_row_length n i hi,
    lookAhead_get2 n i j hi hj, ?_⟩
  rw [lookAhead_get2 n i j hi hj]
  split <;> simp_all [Nat.lt_iff_add_one_le]

theorem create_masks_eq (inp tar : List (List Nat)) :
    create_masks inp tar =
      (create_padding_mask inp,
       broadcastMax4 (create_padding_mask tar) (create_look_ahead_mask (dim1 tar)),
       create_padding_mask inp) := rfl

theorem broadcastMax4_getD (pad : List (List (List (List ℚ)))) (look : List (List ℚ))
    (b : Nat) (hb : b < pad.length) :
    (broadcastMax4 pad look).getD b [] =
      [look.map (fun row =>
        List.zipWith max (((pad.getD b []).headD []).headD []) row)] := by
  unfold broadcastMax4
  rw [List.getD_eq_getElem _ _ (by simpa using hb), List.getElem_map,
    List.getD_eq_getElem _ _ hb]

theorem zipWith_max_getD (a b : List ℚ) (j : Nat) (hja : j < a.length)
    (hjb : j < b.length) :
    (List.zipWith max a b).getD j 0 = max (a.getD j 0) (b.getD j 0) := by
  rw [List.getD_eq_getElem _ _
      (by rw [List.length_zipWith]; exact Nat.lt_min.mpr ⟨hja, hjb⟩),
    List.getElem_zipWith, List.getD_eq_getElem _ _ hja, List.getD_eq_getElem _ _ hjb]

/-- C4: the combined decoder mask returned by `create_masks` is the
element-wise (broadcast) maximum of the decoder input's padding mask and
the look-ahead mask — entry (b, 0, i, j) equals 1 iff either input mask is
1 there — and both the encoder self-attention padding mask and the
cross-attention padding mask are computed from the encoder input. -/
theorem create_masks_spec (inp tar : List (List Nat)) (b i j : Nat)
    (hb : b < tar.length) (hrow : (tar.getD b []).length = dim1 tar)
    (hi : i < dim1 tar) (hj : j < dim1 tar) :
    (create_masks inp tar).1 = create_padding_mask inp ∧
    (create_masks inp tar).2.2 = create_padding_mask inp ∧
    get4 (create_masks inp tar).2.1 b 0 i j
      = max (get4 (create_padding_mask tar) b 0 0 j)
          (get2 (create_look_ahead_mask (dim1 tar)) i j) ∧
    (get4 (create_masks inp tar).2.1 b 0 i j = 1 ↔
      (get4 (create_padding_mask tar) b 0 0 j = 1 ∨
       get2 (create_look_ahead_mask (dim1 tar)) i j = 1)) := by
  have hbpad : b < (create_padding_mask tar).length := by
    rw [create_padding_mask_length]; exact hb
  have hpadrow : (((create_padding_mask tar).getD b []).headD []).headD []
      = padVals (tar.getD b []) := by
    rw [create_padding_mask_getD tar b hb]; rfl
  have hcomb : (create_masks inp tar).2.1
      = broadcastMax4 (create_padding_mask tar) (create_look_ahead_mask (dim1 tar)) := by
    rw [create_masks_eq]
  have hlookrow : i < (create_look_ahead_mask (dim1 tar)).length := by
    rw [lookAhead_length]; exact hi
  have hrowEq : (List.map (fun row =>
        List.zipWith max (padVals (tar.getD b [])) row)
        (create_look_ahead_mask (dim1 tar))).getD i []
      = List.zipWith max (padVals (tar.getD b []))
          ((create_look_ahead_mask (dim1 tar)).getD i []) := by
    rw [List.getD_eq_getElem _ _ (by simpa using hlookrow), List.getElem_map,
      List.getD_eq_getElem _ _ hlookrow]
  have hjp : j < (padVals (tar.getD b [])).length := by
    rw [padVals_length, hrow]; exact hj
  have hjl : j < ((create_look_ahead_mask (dim1 tar)).getD i []).length := by
    rw [lookAhead_row_length _ i hi]; exact hj
  have hentry : get4 (create_masks inp tar).2.1 b 0 i j
      = max ((padVals (tar.getD b [])).getD j 0)
          (((create_look_ahead_mask (dim1 tar)).getD i []).getD j 0) := by
    unfold get4
    rw [hcomb, broadcastMax4_getD _ _ b hbpad, hpadrow, List.getD_cons_zero,
      hrowEq, zipWith_max_getD _ _ j hjp hjl]
  have hpadval : get4 (create_padding_mask tar) b 0 0 j
      = (padVals (tar.getD b [])).getD j 0 := by
    unfold get4
    rw [create_padding_mask_getD tar b hb]
    rfl
  refine ⟨rfl, rfl, ?_, ?_⟩
  · rw [hentry, hpadval]
    rfl
  · rw [hentry, hpadval]
    exact max_eq_one_iff (padVals_getD_cases _ j) (lookAhead_get2_cases _ i j)

theorem evalLoop_succ {α : Type} (vt : Nat) (model : Transformer α) (encInp : List Nat)
    (n : Nat) (output : List Nat) (att : Option α) :
    evalLoop vt model encInp (n + 1) output att =
      if stepPredictedId model encInp output = vt + 1 then
        (output, some (stepAttention model encInp output))
      else
        evalLoop vt model encInp n (output ++ [stepPredictedId model encInp output])
          (some (stepAttention model encInp output)) := rfl

theorem evaluate_eq_evalLoop {α : Type} (inp_sentence : String)
    (tokenizer_source tokenizer_target : SubwordTextEncoder)
    (max_length_pred : Int) (transformer : Transformer α) :
    evaluate inp_sentence tokenizer_source tokenizer_target max_length_pred transformer
      = evalLoop tokenizer_target.vocab_size transformer
          (encoderInputOf tokenizer_source inp_sentence)
          max_length_pred.toNat [tokenizer_target.vocab_size] none := rfl

theorem evalLoop_length_le {α : Type} (vt : Nat) (model : Transformer α)
    (encInp : List Nat) :
    ∀ (n : Nat) (output : List Nat) (att : Option α),
      output.length ≤ (evalLoop vt model encInp n output att).1.length ∧
      (evalLoop vt model encInp n output att).1.length ≤ output.length + n := by
  intro n
  induction n with
  | zero => intro o a; simp [evalLoop]
  | succ n ih =>
      intro o a
      rw [evalLoop_succ]
      split
      · simp
      · obtain ⟨h1, h2⟩ := ih (o ++ [stepPredictedId model encInp o])
          (some (stepAttention model encInp o))

        constructor
        · refine le_trans ?_ h1
          simp
        · refine le_trans h2 ?_
          simp
          omega

theorem evalLoopCount_le {α : Type} (vt : Nat) (model : Transformer α)
    (encInp : List Nat) :
    ∀ (n : Nat) (output : List Nat), evalLoopCount vt model encInp n output ≤ n := by
  intro n
  induction n with
  | zero => intro o; simp [evalLoopCount]
  | succ n ih =>
      intro o
      unfold evalLoopCount
      split
      · omega
      · have := ih (o ++ [stepPredictedId model encInp o])
        omega

theorem evalLoop_no_end {α : Type} (vt : Nat) (model : Transformer α)
    (encInp : List Nat) :
    ∀ (n : Nat) (output : List Nat) (att : Option α),
      (∀ x ∈ output, x ≠ vt + 1) →
      ∀ x ∈ (evalLoop vt model encInp n output att).1, x ≠ vt + 1 := by
  intro n
  induction n with
  | zero => intro o a h; simpa [evalLoop] using h
  | succ n ih =>
      intro o a h
      rw [evalLoop_succ]
      split
      · simpa using h
      · rename_i hne
        refine ih _ _ ?_
        intro x hx
        rcases List.mem_append.mp hx with hx | hx
        · exact h x hx
        · have : x = stepPredictedId model encInp o := by simpa using hx
          rw [this]
          exact hne

theorem evalLoop_isSome {α : Type} (vt : Nat) (model : Transformer α)
    (encInp : List Nat) :
    ∀ (n : Nat) (output : List Nat) (att : Option α),
      att.isSome = true ∨ 1 ≤ n →
      ((evalLoop vt model encInp n output att).2).isSome = true := by
  intro n
  induction n with
  | zero =>
      intro o a h
      rcases h with h | h
      · simpa [evalLoop] using h
      · omega
  | succ n ih =>
      intro o a h
      rw [evalLoop_succ]
      split
      · rfl
      · exact ih _ _ (Or.inl rfl)

theorem evalLoop_never_end_length {α : Type} (vt : Nat) (model : Transformer α)
    (encInp : List Nat) (h : ∀ o, stepPredictedId model encInp o ≠ vt + 1) :
    ∀ (n : Nat) (output : List Nat) (att : Option α),
      (evalLoop vt model encInp n output att).1.length = output.length + n := by
  intro n
  induction n with
  | zero => intro o a; simp [evalLoop]
  | succ n ih =>
      intro o a
      rw [evalLoop_succ, if_neg (h o), ih]
      simp
      omega

theorem evalLoop_never_end_att {α : Type} (vt : Nat) (model : Transformer α)
    (encInp : List Nat) (h : ∀ o, stepPredictedId model encInp o ≠ vt + 1) :
    ∀ (n : Nat) (output : List Nat) (att : Option α),
      (evalLoop vt model encInp (n + 1) output att).2
        = some (stepAttention model encInp
            ((evalLoop vt model encInp (n + 1) output att).1.dropLast)) := by
  intro n
  induction n with
  | zero =>
      intro o a
      rw [evalLoop_succ, if_neg (h o)]
      simp [evalLoop, List.dropLast_concat]
  | succ n ih =>
      intro o a
      rw [evalLoop_succ, if_neg (h o)]
      exact ih _ _

/-- C1: whenever an iteration's greedy argmax equals the target end
sentinel (target vocab size + 1), the loop returns at that iteration the
decoder sequence accumulated so far, without appending the sentinel,
paired with that iteration's attention weights; in particular a model that
selects the end sentinel on the first step makes `evaluate` return the
one-token sequence holding only the target start sentinel. -/
theorem evaluate_stops_on_end_sentinel {α : Type}
    (tokenizer_source tokenizer_target : SubwordTextEncoder)
    (transformer : Transformer α) (inp_sentence : String)
    (max_length_pred : Int) (hL : 0 < max_length_pred) :
    (∀ (n : Nat) (output : List Nat) (att : Option α),
        stepPredictedId transformer (encoderInputOf tokenizer_source inp_sentence) output
          = tokenizer_target.vocab_size + 1 →
        evalLoop tokenizer_target.vocab_size transformer
            (encoderInputOf tokenizer_source inp_sentence) (n + 1) output att
          = (output, some (stepAttention transformer
              (encoderInputOf tokenizer_source inp_sentence) output))) ∧
    (stepPredictedId transformer (encoderInputOf tokenizer_source inp_sentence)
        [tokenizer_target.vocab_size] = tokenizer_target.vocab_size + 1 →
      evaluate inp_sentence tokenizer_source tokenizer_target max_length_pred transformer
        = ([tokenizer_target.vocab_size],
           some (stepAttention transformer
             (encoderInputOf tokenizer_source inp_sentence)
             [tokenizer_target.vocab_size]))) := by
  constructor
  · intro n output att h
    rw [evalLoop_succ, if_pos h]
  · intro h
    obtain ⟨k, hk⟩ : ∃ k, max_length_pred.toNat = k + 1 := ⟨max_length_pred.toNat - 1, by omega⟩
    rw [evaluate_eq_evalLoop, hk, evalLoop_succ, if_pos h]

/-- C2: `evaluate` always terminates, invoking the model at most
`max_length` times, and the returned token sequence (which starts with the
target start sentinel) has length between 1 and `max_length` + 1. -/
theorem evaluate_terminates_within_bounds {α : Type}
    (tokenizer_source tokenizer_target : SubwordTextEncoder)
    (transformer : Transformer α) (inp_sentence : String)
    (max_length_pred : Int) (hL : 0 < max_length_pred) :
    1 ≤ (evaluate inp_sentence tokenizer_source tokenizer_target
          max_length_pred transformer).1.length ∧
    (evaluate inp_sentence tokenizer_source tokenizer_target
        max_length_pred transformer).1.length ≤ max_length_pred.toNat + 1 ∧
    evaluateModelCalls inp_sentence tokenizer_source tokenizer_target
        max_length_pred transformer ≤ max_length_pred.toNat := by
  obtain ⟨h1, h2⟩ := evalLoop_length_le tokenizer_target.vocab_size transformer
    (encoderInputOf tokenizer_source inp_sentence) max_length_pred.toNat
    [tokenizer_target.vocab_size] none
  rw [evaluate_eq_evalLoop]
  refine ⟨by simpa using h1, by simpa [Nat.add_comm] using h2, ?_⟩
  exact evalLoopCount_le _ _ _ _ _

/-- C3: when the greedy argmax never selects the target end sentinel, the
loop exhausts all `max_length` iterations and returns exactly
`max_length` + 1 tokens (start sentinel plus `max_length` generated ids),
together with the attention weights of the last iteration (the one whose
decoder input was the result minus its final token) — soft truncation, no
error.  With `max_length` = 5 this gives exactly 6 tokens. -/
theorem evaluate_truncates_without_end {α : Type}
    (tokenizer_source tokenizer_target : SubwordTextEncoder)
    (transformer : Transformer α) (inp_sentence : String)
    (max_length_pred : Int) (hL : 0 < max_length_pred)
    (hne : ∀ output, stepPredictedId transformer
      (encoderInputOf tokenizer_source inp_sentence) output
        ≠ tokenizer_target.vocab_size + 1) :
    (evaluate inp_sentence tokenizer_source tokenizer_target
        max_length_pred transformer).1.length = max_length_pred.toNat + 1 ∧
    (evaluate inp_sentence tokenizer_source tokenizer_target
        max_length_pred transformer).2
      = some (stepAttention transformer (encoderInputOf tokenizer_source inp_sentence)
          ((evaluate inp_sentence tokenizer_source tokenizer_target
            max_length_pred transformer).1.dropLast)) := by
  obtain ⟨k, hk⟩ : ∃ k, max_length_pred.toNat = k + 1 := ⟨max_length_pred.toNat - 1, by omega⟩
  rw [evaluate_eq_evalLoop, hk]
  constructor
  · rw [evalLoop_never_end_length _ _ _ hne]
    simp
    omega
  · exact evalLoop_never_end_att _ _ _ hne k _ _

/-- C10: no element of the sequence returned by `evaluate` equals the
target end-sentinel id: the sequence starts as the start sentinel alone,
the loop returns before appending when the end sentinel is predicted, and
every appended id was checked to differ from it. -/
theorem evaluate_never_contains_end_sentinel {α : Type}
    (tokenizer_source tokenizer_target : SubwordTextEncoder)
    (transformer : Transformer α) (inp_sentence : String)
    (max_length_pred : Int) (hL : 0 < max_length_pred) :
    ∀ x ∈ (evaluate inp_sentence tokenizer_source tokenizer_target
        max_length_pred transformer).1,
      x ≠ tokenizer_target.vocab_size + 1 := by
  rw [evaluate_eq_evalLoop]
  refine evalLoop_no_end _ _ _ _ _ _ ?_
  intro x hx
  have : x = tokenizer_target.vocab_size := by simpa using hx
  omega

/-- C8, amended: `evaluate` performs no input validation.  A non-positive
`max_length_pred` skips the loop entirely, so the final return uses the
never-bound `attention_weights` local (modelled as `none`) — an unbound
local error, not a descriptive validation error — while an empty (or any)
source sentence with positive `max_length_pred` is decoded normally and
yields a result with attention weights. -/
theorem evaluate_no_input_validation {α : Type}
    (tokenizer_source tokenizer_target : SubwordTextEncoder)
    (transformer : Transformer α) (inp_sentence : String)
    (max_length_pred : Int) :
    (max_length_pred ≤ 0 →
      evaluate inp_sentence tokenizer_source tokenizer_target max_length_pred transformer
        = ([tokenizer_target.vocab_size], none)) ∧
    (0 < max_length_pred →
      ((evaluate inp_sentence tokenizer_source tokenizer_target
          max_length_pred transformer).2).isSome = true) := by
  constructor
  · intro h
    have h0 : max_length_pred.toNat = 0 := by omega
    rw [evaluate_eq_evalLoop, h0]
    rfl
  · intro h
    rw [evaluate_eq_evalLoop]
    exact evalLoop_isSome _ _ _ _ _ _ (Or.inr (by omega))

/-- C9: `translate` hands the target decoder exactly the subsequence of
result ids strictly below the target vocabulary size, in order: the kept
list is a sublist of the result, every kept id is below the vocabulary
size, every small id of the result is kept, and on the claim's example
[10, 5, 7, 11] with vocabulary size 10 only [5, 7] remains. -/
theorem translate_strips_large_ids {α : Type}
    (tokenizer_source tokenizer_target : SubwordTextEncoder)
    (transformer : Transformer α) (inp_sentence : String)
    (max_length_pred : Int) :
    (∃ kept : List Nat,
      translate inp_sentence tokenizer_source tokenizer_target
          max_length_pred transformer = tokenizer_target.decode kept ∧
      kept.Sublist (evaluate inp_sentence tokenizer_source tokenizer_target
        max_length_pred transformer).1 ∧
      (∀ x ∈ kept, x < tokenizer_target.vocab_size) ∧
      (∀ x ∈ (evaluate inp_sentence tokenizer_source tokenizer_target
          max_length_pred transformer).1,
        x < tokenizer_target.vocab_size → x ∈ kept) ∧
      kept = (evaluate inp_sentence tokenizer_source tokenizer_target
          max_length_pred transformer).1.filter
            (fun i => decide (i < tokenizer_target.vocab_size))) ∧
    List.filter (fun i => decide (i < 10)) [10, 5, 7, 11] = [5, 7] := by
  refine ⟨⟨(evaluate inp_sentence tokenizer_source tokenizer_target
      max_length_pred transformer).1.filter
        (fun i => decide (i < tokenizer_target.vocab_size)),
    rfl, List.filter_sublist _, ?_, ?_, rfl⟩, by decide⟩
  · intro x hx
    simpa using (List.mem_filter.mp hx).2
  · intro x hx h
    exact List.mem_filter.mpr ⟨hx, by simpa using h⟩

theorem rpow_neg_three_halves (w : ℕ) (hw : 0 < w) :
    (w : ℝ) ^ (-1.5 : ℝ) = ((w : ℝ) * Real.sqrt w)⁻¹ := by
  have hwpos : (0 : ℝ) < w := by exact_mod_cast hw
  rw [show (-1.5 : ℝ) = -(1 + 1 / 2) by norm_num, Real.rpow_neg hwpos.le,
    Real.rpow_add hwpos, Real.rpow_one, ← Real.sqrt_eq_rpow]

theorem schedule_min_warmup (w : ℕ) (hw : 0 < w) (s : ℝ) (hs : 0 < s)
    (hsw : s ≤ (w : ℝ)) :
    min (rsqrt s) (s * (w : ℝ) ^ (-1.5 : ℝ)) = s * (w : ℝ) ^ (-1.5 : ℝ) := by
  have hwpos : (0 : ℝ) < w := by exact_mod_cast hw
  have hW : 0 < (w : ℝ) * Real.sqrt w :=
    mul_pos hwpos (Real.sqrt_pos.mpr hwpos)
  have hS : 0 < Real.sqrt s := Real.sqrt_pos.mpr hs
  apply min_eq_right
  rw [rpow_neg_three_halves w hw, rsqrt, ← div_eq_mul_inv, ← one_div,
    div_le_div_iff₀ hW hS, one_mul]
  exact mul_le_mul hsw (Real.sqrt_le_sqrt hsw) (Real.sqrt_nonneg s) hwpos.le

theorem schedule_min_decay (w : ℕ) (hw : 0 < w) (s : ℝ) (hws : (w : ℝ) ≤ s) :
    min (rsqrt s) (s * (w : ℝ) ^ (-1.5 : ℝ)) = rsqrt s := by
  have hwpos : (0 : ℝ) < w := by exact_mod_cast hw
  have hs : 0 < s := lt_of_lt_of_le hwpos hws
  have hW : 0 < (w : ℝ) * Real.sqrt w :=
    mul_pos hwpos (Real.sqrt_pos.mpr hwpos)
  have hS : 0 < Real.sqrt s := Real.sqrt_pos.mpr hs
  apply min_eq_left
  rw [rpow_neg_three_halves w hw, rsqrt, ← div_eq_mul_inv, ← one_div,
    div_le_div_iff₀ hS hW, one_mul]
  exact mul_le_mul hws (Real.sqrt_le_sqrt hws) (Real.sqrt_nonneg _) hs.le

theorem schedule_call_warmup (sch : CustomSchedule) (hw : 0 < sch.warmup_steps)
    (s : ℝ) (hs : 0 < s) (hsw : s ≤ (sch.warmup_steps : ℝ)) :
    sch.call s = rsqrt (sch.d_model : ℝ) *
      (s * (sch.warmup_steps : ℝ) ^ (-1.5 : ℝ)) := by
  show rsqrt (sch.d_model : ℝ) *
      min (rsqrt s) (s * (sch.warmup_steps : ℝ) ^ (-1.5 : ℝ)) = _
  rw [schedule_min_warmup sch.warmup_steps hw s hs hsw]

theorem schedule_call_decay (sch : CustomSchedule) (hw : 0 < sch.warmup_steps)
    (s : ℝ) (hws : (sch.warmup_steps : ℝ) ≤ s) :
    sch.call s = rsqrt (sch.d_model : ℝ) * rsqrt s := by
  show rsqrt (sch.d_model : ℝ) *
      min (rsqrt s) (s * (sch.warmup_steps : ℝ) ^ (-1.5 : ℝ)) = _
  rw [schedule_min_decay sch.warmup_steps hw s hws]

/-- C7: for fixed positive `d_model` and `warmup_steps`, the learning rate
`rsqrt(d_model) * min(rsqrt(step), step * warmup_steps ^ -1.5)` is strictly
increasing on steps in [1, warmup_steps], strictly decreasing after
`warmup_steps`, and attains its maximum over the step range
[1, 10 * warmup_steps] at `step = warmup_steps`. -/
theorem CustomSchedule_call_peak_at_warmup (sch : CustomSchedule)
    (hd : 0 < sch.d_model) (hw : 0 < sch.warmup_steps) :
    (∀ s s' : ℝ, 1 ≤ s → s < s' → s' ≤ (sch.warmup_steps : ℝ) →
      sch.call s < sch.call s') ∧
    (∀ s s' : ℝ, (sch.warmup_steps : ℝ) ≤ s → s < s' →
      sch.call s' < sch.call s) ∧
    (∀ s : ℝ, 1 ≤ s → s ≤ 10 * (sch.warmup_steps : ℝ) →
      sch.call s ≤ sch.call (sch.warmup_steps : ℝ)) := by
  have hdpos : 0 < rsqrt (sch.d_model : ℝ) := by
    rw [rsqrt]
    exact inv_pos.mpr (Real.sqrt_pos.mpr (by exact_mod_cast hd))
  have hwpos : (0 : ℝ) < sch.warmup_steps := by exact_mod_cast hw
  have hwpow : 0 < (sch.warmup_steps : ℝ) ^ (-1.5 : ℝ) :=
    Real.rpow_pos_of_pos hwpos _
  refine ⟨?_, ?_, ?_⟩
  · intro s s' hs hss hs'w
    have hs0 : (0 : ℝ) < s := lt_of_lt_of_le one_pos hs
    have hs'0 : (0 : ℝ) < s' := lt_trans hs0 hss
    rw [schedule_call_warmup sch hw s hs0 (le_trans hss.le hs'w),
      schedule_call_warmup sch hw s' hs'0 hs'w]
    exact mul_lt_mul_of_pos_left (mul_lt_mul_of_pos_right hss hwpow) hdpos
  · intro s s' hws hss
    have hs0 : (0 : ℝ) < s := lt_of_lt_of_le hwpos hws
    rw [schedule_call_decay sch hw s hws,
      schedule_call_decay sch hw s' (le_trans hws hss.le)]
    refine mul_lt_mul_of_pos_left ?_ hdpos
    rw [rsqrt, rsqrt]
    exact inv_strictAnti₀ (Real.sqrt_pos.mpr hs0) (Real.sqrt_lt_sqrt hs0.le hss)
  · intro s hs1 hs10
    rcases le_total s (sch.warmup_steps : ℝ) with hsw | hws
    · rw [schedule_call_warmup sch hw s (lt_of_lt_of_le one_pos hs1) hsw,
        schedule_call_warmup sch hw _ hwpos le_rfl]
      exact mul_le_mul_of_nonneg_left
        (mul_le_mul_of_nonneg_right hsw hwpow.le) hdpos.le
    · rw [schedule_call_decay sch hw s hws, schedule_call_decay sch hw _ le_rfl]
      refine mul_le_mul_of_nonneg_left ?_ hdpos.le
      rw [rsqrt, rsqrt]
      exact inv_anti₀ (Real.sqrt_pos.mpr hwpos) (Real.sqrt_le_sqrt hws)

theorem zeroModel_stepPredictedId (encInp output : List Nat) :
    stepPredictedId zeroModel encInp output = 0 := rfl

/-- Witness for C1: with the stub end-selecting model and `max_length` 1,
`evaluate` returns only the target start sentinel 3 with that first
iteration's attention weights. -/
theorem evaluate_stops_on_end_sentinel_witness :
    evaluate "hello" sTokS sTokT 1 endModel = ([3], some 9) :=
  (evaluate_stops_on_end_sentinel sTokS sTokT endModel "hello" 1
    (by decide)).2 (by decide)

/-- Witness for C2 at `max_length` = 5 with the never-ending stub model. -/
theorem evaluate_terminates_within_bounds_witness :
    1 ≤ (evaluate "hello" sTokS sTokT 5 zeroModel).1.length ∧
    (evaluate "hello" sTokS sTokT 5 zeroModel).1.length ≤ (5 : Int).toNat + 1 ∧
    evaluateModelCalls "hello" sTokS sTokT 5 zeroModel ≤ (5 : Int).toNat :=
  evaluate_terminates_within_bounds sTokS sTokT zeroModel "hello" 5 (by decide)

/-- Witness for C3: the stub model never selects the end sentinel, so with
`max_length` = 5 the output has exactly 6 tokens and the last iteration's
attention weights are returned. -/
theorem evaluate_truncates_without_end_witness :
    (evaluate "hello" sTokS sTokT 5 zeroModel).1.length = 6 ∧
    (evaluate "hello" sTokS sTokT 5 zeroModel).2
      = some (stepAttention zeroModel (encoderInputOf sTokS "hello")
          ((evaluate "hello" sTokS sTokT 5 zeroModel).1.dropLast)) :=
  evaluate_truncates_without_end sTokS sTokT zeroModel "hello" 5 (by decide)
    (fun o => by rw [zeroModel_stepPredictedId]; decide)

/-- Witness for C4 on a concrete batch: encoder input [[1, 0]], decoder
input [[5, 0, 7]], entry (0, 0, 1, 2). -/
theorem create_masks_spec_witness :
    (create_masks [[1, 0]] [[5, 0, 7]]).1 = create_padding_mask [[1, 0]] ∧
    (create_masks [[1, 0]] [[5, 0, 7]]).2.2 = create_padding_mask [[1, 0]] ∧
    get4 (create_masks [[1, 0]] [[5, 0, 7]]).2.1 0 0 1 2
      = max (get4 (create_padding_mask [[5, 0, 7]]) 0 0 0 2)
          (get2 (create_look_ahead_mask (dim1 [[5, 0, 7]])) 1 2) ∧
    (get4 (create_masks [[1, 0]] [[5, 0, 7]]).2.1 0 0 1 2 = 1 ↔
      (get4 (create_padding_mask [[5, 0, 7]]) 0 0 0 2 = 1 ∨
       get2 (create_look_ahead_mask (dim1 [[5, 0, 7]])) 1 2 = 1)) :=
  create_masks_spec [[1, 0]] [[5, 0, 7]] 0 1 2 (by decide) (by decide)
    (by decide) (by decide)

/-- Witness for C5 on a concrete batch at position (1, 2). -/
theorem create_padding_mask_spec_witness :
    (create_padding_mask [[4], [5, 0, 7]]).length = [[4], [5, 0, 7]].length ∧
    ((create_padding_mask [[4], [5, 0, 7]]).getD 1 []).length = 1 ∧
    (((create_padding_mask [[4], [5, 0, 7]]).getD 1 []).getD 0 []).length = 1 ∧
    ((((create_padding_mask [[4], [5, 0, 7]]).getD 1 []).getD 0 []).getD 0 []).length
      = ([[4], [5, 0, 7]].getD 1 []).length ∧
    get4 (create_padding_mask [[4], [5, 0, 7]]) 1 0 0 1
      = (if ([[4], [5, 0, 7]].getD 1 []).getD 1 0 = 0 then 1 else 0) ∧
    (get4 (create_padding_mask [[4], [5, 0, 7]]) 1 0 0 1 = 1 ↔
      ([[4], [5, 0, 7]].getD 1 []).getD 1 0 = 0) :=
  create_padding_mask_spec [[4], [5, 0, 7]] 1 1 (by decide) (by decide)

/-- Witness for C6 at size 3, entry (0, 2). -/
theorem create_look_ahead_mask_spec_witness :
    (create_look_ahead_mask 3).length = 3 ∧
    ((create_look_ahead_mask 3).getD 0 []).length = 3 ∧
    get2 (create_look_ahead_mask 3) 0 2 = (if 0 < 2 then 1 else 0) ∧
    (get2 (create_look_ahead_mask 3) 0 2 = 1 ↔ 2 > 0) :=
  create_look_ahead_mask_spec 3 0 2 (by decide) (by decide)

/-- Witness for C7 with d_model = 4 and warmup_steps = 2: the learning
rate rises from step 1 to step 3/2, falls from step 2 to step 3, and step
5 (inside [1, 20]) does not exceed the value at the warmup boundary. -/
theorem CustomSchedule_call_peak_at_warmup_witness :
    CustomSchedule.call ⟨4, 2⟩ 1 < CustomSchedule.call ⟨4, 2⟩ (3 / 2) ∧
    CustomSchedule.call ⟨4, 2⟩ 3 < CustomSchedule.call ⟨4, 2⟩ 2 ∧
    CustomSchedule.call ⟨4, 2⟩ 5 ≤ CustomSchedule.call ⟨4, 2⟩ 2 := by
  obtain ⟨h1, h2, h3⟩ := CustomSchedule_call_peak_at_warmup ⟨4, 2⟩
    (by decide) (by decide)
  refine ⟨?_, ?_, ?_⟩
  · have := h1 1 (3 / 2) (by norm_num) (by norm_num) (by norm_num)
    simpa using this
  · have := h2 2 3 (by norm_num) (by norm_num)
    simpa using this
  · have := h3 5 (by norm_num) (by norm_num)
    simpa using this

/-- Counterexample for C8: an empty source sentence is not rejected — the
decode loop runs normally and returns a full result (token sequence
[3, 0]) together with attention weights, so no immediate descriptive
error is reported on this invalid input. -/
theorem evaluate_empty_sentence_no_error :
    evaluate "" sTokS sTokT 1 zeroModel = ([3, 0], some 7) := by decide

/-- Witness for the amended C8 at `max_length` = -1 and 1. -/
theorem evaluate_no_input_validation_witness :
    evaluate "x" sTokS sTokT (-1) zeroModel = ([sTokT.vocab_size], none) ∧
    ((evaluate "x" sTokS sTokT 1 zeroModel).2).isSome = true :=
  ⟨(evaluate_no_input_validation sTokS sTokT zeroModel "x" (-1)).1 (by decide),
   (evaluate_no_input_validation sTokS sTokT zeroModel "x" 1).2 (by decide)⟩

/-- Witness for C10: the head of the sequence decoded by the stub model
differs from the end-sentinel id 4. -/
theorem evaluate_never_contains_end_sentinel_witness :
    (evaluate "h" sTokS sTokT 1 zeroModel).1.getD 0 0 ≠ sTokT.vocab_size + 1 :=
  evaluate_never_contains_end_sentinel sTokS sTokT zeroModel "h" 1 (by decide)
    ((evaluate "h" sTokS sTokT 1 zeroModel).1.getD 0 0) (by decide)

end TransformerUtils
